import Mathlib

/-!
# Verification of the iPerkz support-server core (src/server.js)

A shallow embedding of the algorithmic core of the server:

* string normalisation and the identity verifier
  (normalizePhone, normalizeEmail, normalizeName, fuzzyMatch,
  verifyCustomerOwnership),
* the route aggregator (getRouteProgress),
* the ETA estimator (getDeliveryEstimate),
* the upstream order caches (fetchOrders, fetchTodaysOrders) as a
  state-transition function,
* the verification-session store (customerSessions / pendingVerifications)
  as a state machine over the request events that touch it.

Modelling conventions:

* JS strings are lists of characters (`Str`); the ASCII fragment of
  `toLowerCase` is modelled (all data the server compares is ASCII).
* JS `undefined`/`null` string fields are modelled as the empty string,
  which the source treats identically (every access guards with falsiness
  and `|| ''`).
* The fuzzy-match score comparison `(matched / min) * 100 >= threshold`
  and `Math.round(delivered / total * 100)` are modelled in exact rational
  arithmetic, written over naturals: `threshold * min <= matched * 100`
  and `(200 * delivered + total) / (2 * total)`.
* `Array.prototype.sort` is required by ECMAScript to be stable, so its
  observable result is the unique stable ascending ordering; it is
  modelled by a stable insertion sort.
-/

namespace Iperkz

/-- JS strings, modelled as lists of characters. -/
abbrev Str := List Char

/-- Embed a Lean string literal as a `Str`. -/
def str (s : String) : Str := s.data

/-- ASCII lower-casing of one character, as `String.prototype.toLowerCase`
acts on the ASCII range. -/
def lowerChar (c : Char) : Char :=
  if 65 ≤ c.toNat ∧ c.toNat ≤ 90 then Char.ofNat (c.toNat + 32) else c

/-- `toLowerCase` on a whole string (ASCII fragment). -/
def toLowerStr (s : Str) : Str := s.map lowerChar

/-- One step of `String.prototype.trim`: drop leading whitespace. -/
def trimLeft (s : Str) : Str := s.dropWhile Char.isWhitespace

/-- Drop trailing whitespace. -/
def trimRight (s : Str) : Str := (s.reverse.dropWhile Char.isWhitespace).reverse

/-- `String.prototype.trim`. -/
def trimStr (s : Str) : Str := trimRight (trimLeft s)

/-- The last `n` characters of a string, `s.slice(-n)`. -/
def takeLast (n : Nat) (s : Str) : Str := s.drop (s.length - n)

/-- JS `haystack.includes(needle)`: substring containment. -/
def isSubstr : Str → Str → Bool
  | n, [] => n.isPrefixOf []
  | n, c :: t => n.isPrefixOf (c :: t) || isSubstr n t

/-- src/server.js `normalizePhone`: digits only, last 10 kept.
(`phone.replace(/[^0-9]/g, '').slice(-10)`; an absent phone is the empty
string, on which the same pipeline also yields `''`.) -/
def normalizePhone (phone : Str) : Str :=
  takeLast 10 (phone.filter Char.isDigit)

/-- src/server.js `normalizeEmail`: `email.toLowerCase().trim()`. -/
def normalizeEmail (email : Str) : Str :=
  trimStr (toLowerStr email)

/-- Collapse every whitespace run to a single space
(`.replace(/\s+/g, ' ')`). -/
def collapseSpaces : Str → Str
  | [] => []
  | c :: cs =>
    if c.isWhitespace then
      match cs with
      | c2 :: _ => if c2.isWhitespace then collapseSpaces cs else ' ' :: collapseSpaces cs
      | [] => [' ']
    else c :: collapseSpaces cs

/-- src/server.js `normalizeName`:
`name.toLowerCase().trim().replace(/[^a-z\s]/g, '').replace(/\s+/g, ' ')`. -/
def normalizeName (name : Str) : Str :=
  collapseSpaces ((trimStr (toLowerStr name)).filter
    (fun c => c.isLower || c.isWhitespace))

/-- Strip to lowercase alphanumeric:
`s.toLowerCase().replace(/[^a-z0-9]/g, '')` inside `fuzzyMatch`. -/
def stripAlnum (s : Str) : Str :=
  (toLowerStr s).filter (fun c => c.isLower || c.isDigit)

/-- The character-sequence walk of `fuzzyMatch`: count input characters
found in order in the target via a forward-lookahead cursor
(`targetLower.indexOf(inputLower[i], targetIndex)`); the cursor moves just
past each found character, and the walk stops when the cursor leaves the
target. Returns `matchedChars`. -/
def fuzzyScan : Str → Str → Nat
  | [], _ => 0
  | _ :: _, [] => 0
  | c :: input, d :: target =>
    let tgt := d :: target
    let j := tgt.findIdx (· == c)
    if j < tgt.length then fuzzyScan input (tgt.drop (j + 1)) + 1
    else fuzzyScan input tgt

/-- src/server.js `fuzzyMatch(input, target, minMatchPercent)`.
The score acceptance `(matchedChars / min(lengths)) * 100 >= minMatchPercent`
is modelled exactly as `minMatchPercent * min(lengths) <= matchedChars * 100`
(all call sites pass integral thresholds). -/
def fuzzyMatch (input target : Str) (minMatchPercent : Nat) : Bool :=
  if input.isEmpty || target.isEmpty then false
  else
    let inputLower := stripAlnum input
    let targetLower := stripAlnum target
    if inputLower.length < 2 || targetLower.length < 2 then false
    else if inputLower == targetLower then true
    else if isSubstr targetLower inputLower || isSubstr inputLower targetLower then true
    else
      decide (minMatchPercent * min inputLower.length targetLower.length ≤
        fuzzyScan inputLower targetLower * 100)

/-- An order record, restricted to the fields the embedded core reads.
Absent string fields are the empty string; `deliverySeq` keeps its
possibly-absent JS shape. -/
structure Order where
  customerOrderId : Nat
  orderStatus : Str
  phone : Str
  email : Str
  firstName : Str
  lastName : Str
  address : Str
  deliveryAssociate : Str
  deliverySeq : Option Nat
  deriving DecidableEq, Repr

/-- Step 1 of `verifyCustomerOwnership`: the phone check, on the already
normalized order phone and identifier digits.
`orderPhone === inputPhone || orderPhone.endsWith(inputPhone) ||
 orderPhone.includes(inputPhone) || inputPhone.endsWith(orderPhone.slice(-4))`
guarded by `orderPhone && inputPhone && inputPhone.length >= 4`. -/
def phoneCheck (orderPhone inputPhone : Str) : Bool :=
  if !orderPhone.isEmpty && !inputPhone.isEmpty && 4 ≤ inputPhone.length then
    orderPhone == inputPhone ||
    inputPhone.isSuffixOf orderPhone ||
    isSubstr inputPhone orderPhone ||
    (takeLast 4 orderPhone).isSuffixOf inputPhone
  else false

/-- Step 2 of `verifyCustomerOwnership`: the email check.
`emailUsername` is the part before the first `@`. -/
def emailCheck (orderEmail inputLower : Str) : Bool :=
  if !orderEmail.isEmpty && 3 ≤ inputLower.length then
    let emailUsername := orderEmail.takeWhile (· ≠ '@')
    orderEmail == inputLower ||
    emailUsername == inputLower ||
    isSubstr inputLower orderEmail ||
    isSubstr emailUsername inputLower ||
    fuzzyMatch inputLower emailUsername 70
  else false

/-- Steps 3 and 4 of `verifyCustomerOwnership`: first-name and last-name
checks share this shape (equality, prefix either way, containment either
way, fuzzy at 60%), guarded by a nonempty name and identifier length 2. -/
def nameCheck (nm inputNormalized : Str) : Bool :=
  if !nm.isEmpty && 2 ≤ inputNormalized.length then
    nm == inputNormalized ||
    inputNormalized.isPrefixOf nm ||
    nm.isPrefixOf inputNormalized ||
    isSubstr inputNormalized nm ||
    isSubstr nm inputNormalized ||
    fuzzyMatch inputNormalized nm 60
  else false

/-- Step 5 of `verifyCustomerOwnership`: the full-name check. -/
def fullNameCheck (fullName firstName lastName inputNormalized : Str) : Bool :=
  if !fullName.isEmpty && 3 ≤ inputNormalized.length then
    fullName == inputNormalized ||
    isSubstr inputNormalized fullName ||
    isSubstr firstName inputNormalized ||
    isSubstr lastName inputNormalized ||
    fuzzyMatch inputNormalized fullName 50
  else false

/-- Step 6 of `verifyCustomerOwnership`: final fuzzy pass against first
and last name at 70%, for identifiers of normalized length at least 3. -/
def finalFuzzyCheck (firstName lastName inputNormalized : Str) : Bool :=
  if 3 ≤ inputNormalized.length then
    fuzzyMatch inputNormalized firstName 70 ||
    fuzzyMatch inputNormalized lastName 70
  else false

/-- src/server.js `verifyCustomerOwnership(order, identifier)`: the checks
run in order and short-circuit on first success. -/
def verifyCustomerOwnership (order : Order) (identifier : Str) : Bool :=
  if identifier.isEmpty then false
  else
    let input := trimStr identifier
    let inputLower := toLowerStr input
    let orderPhone := normalizePhone order.phone
    let orderEmail := normalizeEmail order.email
    let firstName := normalizeName order.firstName
    let lastName := normalizeName order.lastName
    let fullName := trimStr (firstName ++ ' ' :: lastName)
    let inputPhone := normalizePhone input
    let inputNormalized := normalizeName input
    phoneCheck orderPhone inputPhone ||
    emailCheck orderEmail inputLower ||
    nameCheck firstName inputNormalized ||
    nameCheck lastName inputNormalized ||
    fullNameCheck fullName firstName lastName inputNormalized ||
    finalFuzzyCheck firstName lastName inputNormalized

/-! ## Route aggregator (`getRouteProgress`) -/

/-- Strip every quote character: `s.replace(/"/g, '')`. -/
def stripQuotes (s : Str) : Str := s.filter (· ≠ '"')

/-- Order status constants. -/
def DELIVERED_STATUS : Str := str "DELIVERED"

/-- The sort key used by `routeOrders.sort((a, b) => (a.deliverySeq || 0) - (b.deliverySeq || 0))`:
a missing sequence (and a zero one, which `||` also defaults) sorts as 0. -/
def seqKey (o : Order) : Nat := o.deliverySeq.getD 0

/-- Stable insertion of an order into a list already sorted ascending by
`seqKey` (it goes after every strictly smaller key and before the first
greater-or-equal key, preserving the original order of equal keys). -/
def insertBySeq (o : Order) : List Order → List Order
  | [] => [o]
  | x :: xs => if seqKey x < seqKey o then x :: insertBySeq o xs else o :: x :: xs

/-- The observable result of `Array.prototype.sort` with the comparator
`(a.deliverySeq || 0) - (b.deliverySeq || 0)`: ECMAScript requires the sort
to be stable, and the stable ascending ordering is unique, so a stable
insertion sort gives the same list. -/
def sortBySeq : List Order → List Order
  | [] => []
  | o :: os => insertBySeq o (sortBySeq os)

/-- The record `getRouteProgress` assembles.  The `orders` field keeps the
sorted order records themselves (the source maps them to display summaries
of the same elements in the same positions). -/
structure RouteProgress where
  routeId : Str
  totalStops : Nat
  completedStops : Nat
  pendingStops : Nat
  currentStopSeq : Option Nat
  currentStopAddress : Option Str
  lastDeliveredAddress : Option Str
  progressPercent : Nat
  orders : List Order
  deriving DecidableEq, Repr

/-- `Math.round(delivered / total * 100)` in exact arithmetic:
round-half-up equals `⌊(200 d + t) / (2 t)⌋`. -/
def roundPercent (delivered total : Nat) : Nat :=
  (200 * delivered + total) / (2 * total)

/-- src/server.js `getRouteProgress(routeId)`, with the cached order list
passed explicitly (the source reads it through `fetchOrders()`). -/
def getRouteProgress (orders : List Order) (routeId : Str) : Option RouteProgress :=
  if routeId.isEmpty || routeId == str "\x22\x22" then none
  else
    let routeOrders := orders.filter
      (fun o => stripQuotes o.deliveryAssociate == stripQuotes routeId)
    if routeOrders.isEmpty then none
    else
      let sorted := sortBySeq routeOrders
      let delivered := (sorted.filter (fun o => o.orderStatus == DELIVERED_STATUS)).length
      let total := sorted.length
      let currentStop := sorted.find? (fun o => o.orderStatus != DELIVERED_STATUS)
      let currentSeq : Option Nat :=
        match currentStop with
        | some o => o.deliverySeq
        | none => some total
      let lastDelivered := (sorted.filter (fun o => o.orderStatus == DELIVERED_STATUS)).getLast?
      some {
        routeId := routeId
        totalStops := total
        completedStops := delivered
        pendingStops := total - delivered
        currentStopSeq := currentSeq
        currentStopAddress := currentStop.map (·.address)
        lastDeliveredAddress := lastDelivered.map (·.address)
        progressPercent := roundPercent delivered total
        orders := sorted
      }

/-! ## ETA estimator (`getDeliveryEstimate`) -/

/-- The estimate record returned by `getDeliveryEstimate`; `none` models a
JS `null` numeric field. -/
structure Estimate where
  eta : Str
  stopsAway : Option Nat
  estimatedMinutes : Option Nat
  message : Str
  routeProgress : Option RouteProgress
  deriving DecidableEq, Repr

/-- `order.deliverySeq || 1`: a missing or zero sequence defaults to 1. -/
def seqOrOne (o : Order) : Nat :=
  match o.deliverySeq with
  | some n => if n = 0 then 1 else n
  | none => 1

/-- `avgTimePerStop` constant of `getDeliveryEstimate`. -/
def avgTimePerStop : Nat := 12

/-- Render a natural as JS would interpolate it. -/
def natStr (n : Nat) : Str := (Nat.repr n).data

/-- src/server.js `getDeliveryEstimate(order, driverInfo)`.  `driverRoute`
models `driverInfo && driverInfo.route` (`none` when there is no driver
info or no route); the route progress is recomputed from the cached order
list exactly as the source awaits `getRouteProgress(driverInfo.route)`.
`deliverySeq - completedStops` clamped at 0 is natural subtraction. -/
def getDeliveryEstimate (orders : List Order) (order : Order)
    (driverRoute : Option Str) : Estimate :=
  let deliverySeq := seqOrOne order
  let status := order.orderStatus
  if status == str "DELIVERED" then
    { eta := str "Delivered", stopsAway := some 0, estimatedMinutes := some 0,
      message := str "✅ Your order has been delivered!", routeProgress := none }
  else if status == str "CANCELLED" then
    { eta := str "Cancelled", stopsAway := some 0, estimatedMinutes := some 0,
      message := str "❌ This order was cancelled.", routeProgress := none }
  else if status == str "PLACED" then
    { eta := str "Pending", stopsAway := none, estimatedMinutes := none,
      message := str "⏳ Your order is being processed. Delivery time will be available once packing starts.",
      routeProgress := none }
  else if status == str "STARTED" then
    { eta := str "Packing", stopsAway := none, estimatedMinutes := none,
      message := str "📦 Your order is being packed. Delivery estimate available after driver assignment.",
      routeProgress := none }
  else
    let routeProgress := driverRoute.bind (getRouteProgress orders)
    let stopsAway :=
      match routeProgress with
      | some rp => deliverySeq - rp.completedStops
      | none => deliverySeq
    if status == str "COMPLETED" then
      { eta := str "Ready for pickup", stopsAway := some stopsAway,
        estimatedMinutes := some (stopsAway * avgTimePerStop + 15),
        message := str "🚚 Ready! Estimated " ++ natStr (stopsAway * avgTimePerStop + 15) ++
          str "-" ++ natStr (stopsAway * avgTimePerStop + 30) ++
          str " minutes once driver starts route.",
        routeProgress := routeProgress }
    else if status == str "OUT_FOR_DELIVERY" then
      let minTime := max (stopsAway * avgTimePerStop) 5
      let maxTime := minTime + 15
      { eta := natStr minTime ++ str "-" ++ natStr maxTime ++ str " min",
        stopsAway := some stopsAway,
        estimatedMinutes := some minTime,
        message :=
          if stopsAway = 0 then
            str "🎉 Driver is heading to you now! Arriving in 5-15 minutes."
          else
            str "🚗 " ++ natStr stopsAway ++
              (if 1 < stopsAway then str " stops" else str " stop") ++
              str " before you. Estimated arrival: " ++ natStr minTime ++
              str "-" ++ natStr maxTime ++ str " minutes.",
        routeProgress := routeProgress }
    else
      { eta := str "Calculating...", stopsAway := none, estimatedMinutes := none,
        message := str "⏳ Calculating delivery estimate...", routeProgress := none }

/-! ## Upstream order caches (`fetchOrders`, `fetchTodaysOrders`)

Each cache is a pair of a possibly-absent snapshot and the timestamp of the
last successful fetch.  A read either serves the fresh cache or performs an
upstream request whose outcome is an explicit parameter. -/

/-- Cache state: `ordersCache` / `lastFetchTime` (resp. the today pair).
`cache = none` models the initial `null`; note an empty array is a truthy
cached value in the source, which `some []` mirrors. -/
structure CacheState where
  cache : Option (List Order)
  lastFetchTime : Nat
  deriving DecidableEq, Repr

/-- Outcome of one upstream request: a network/JSON error (the `catch`
path) or a payload, whose `items` field may be absent. -/
inductive FetchOutcome where
  | netError : FetchOutcome
  | payload : Option (List Order) → FetchOutcome
  deriving DecidableEq, Repr

/-- Whether the outcome is a failure — no usable `items` field. -/
def FetchOutcome.failed : FetchOutcome → Bool
  | .netError => true
  | .payload none => true
  | .payload (some _) => false

/-- Result of one cache read: the value returned to the caller, the cache
state afterwards, and whether an upstream request was issued. -/
structure FetchResult where
  returned : List Order
  state : CacheState
  fetched : Bool
  deriving DecidableEq, Repr

/-- `CACHE_DURATION` (30 s, in ms). -/
def CACHE_DURATION : Nat := 30000

/-- `TODAYS_CACHE_DURATION` (10 s, in ms). -/
def TODAYS_CACHE_DURATION : Nat := 10000

/-- Core of both fetch functions: serve the cache when a value exists and
`now - lastFetchTime < ttl` (natural subtraction: a clock behind the last
fetch also serves the cache, as the negative JS difference would);
otherwise issue the upstream request, adopt a successful payload with its
timestamp, and on failure fall back to `cache || []` with the state
untouched. -/
def cachedFetch (ttl : Nat) (s : CacheState) (now : Nat)
    (upstream : FetchOutcome) : FetchResult :=
  match s.cache with
  | some c =>
    if now - s.lastFetchTime < ttl then ⟨c, s, false⟩
    else
      match upstream with
      | .payload (some items) => ⟨items, ⟨some items, now⟩, true⟩
      | _ => ⟨c, s, true⟩
  | none =>
    match upstream with
    | .payload (some items) => ⟨items, ⟨some items, now⟩, true⟩
    | _ => ⟨[], s, true⟩

/-- src/server.js `fetchOrders()` (wide-window cache, 30 s TTL). -/
def fetchOrders (s : CacheState) (now : Nat) (upstream : FetchOutcome) : FetchResult :=
  cachedFetch CACHE_DURATION s now upstream

/-- src/server.js `fetchTodaysOrders()` (today cache, 10 s TTL). -/
def fetchTodaysOrders (s : CacheState) (now : Nat) (upstream : FetchOutcome) : FetchResult :=
  cachedFetch TODAYS_CACHE_DURATION s now upstream

/-! ## Verification session store

`customerSessions` maps a session identifier to either a bare `Set` of
verified order-id strings (the chat flow's legacy shape) or an object
carrying a `verifiedOrders` set and, for mobile-issued sessions, an
`expiresAt` timestamp.  `pendingVerifications` maps a session identifier
to the `{orderId, order}` pair awaiting verification.  The store is
embedded as a state machine over the request events that touch it. -/

/-- A value stored in `customerSessions`. -/
inductive SessVal where
  | legacySet (verified : List Str)
  | obj (verified : List Str) (expiresAt : Option Nat)
  deriving DecidableEq, Repr

/-- `Set.prototype.add`: idempotent insertion. -/
def addId (l : List Str) (x : Str) : List Str :=
  if l.contains x then l else l ++ [x]

/-- The two server-side maps. -/
structure SessionState where
  sessions : Str → Option SessVal
  pending : Str → Option (Str × Order)

/-- Both maps start empty. -/
def initialSessions : SessionState := ⟨fun _ => none, fun _ => none⟩

/-- `Map.prototype.set`. -/
def mapSet {α : Type} (m : Str → Option α) (k : Str) (v : α) : Str → Option α :=
  fun k2 => if k2 = k then some v else m k2

/-- `Map.prototype.delete`. -/
def mapDel {α : Type} (m : Str → Option α) (k : Str) : Str → Option α :=
  fun k2 => if k2 = k then none else m k2

/-- `SESSION_EXPIRY` = 24 h in ms. -/
def SESSION_EXPIRY : Nat := 24 * 60 * 60 * 1000

/-- The request events that read or mutate the session store.

* `createSession`: `POST /api/v1/session` issues a fresh token.
* `chatEnsureSession`: the prelude of `POST /api/v1/chat` — creates a
  temporary `{verifiedOrders}` session for an unknown token, deletes an
  expired one (rejecting the request).
* `chatOrderQuery`: `handleOrderQuery` reached with a resolved order and
  optional same-message verification info.
* `chatVerifyMessage`: `handleVerification` on a message while a pending
  record exists.
* `mobileVerify`: `POST /api/v1/orders/:orderId/verify` reached with a
  resolved order and an identifier. -/
inductive Event where
  | createSession (token : Str) (now : Nat)
  | chatEnsureSession (token : Str) (now : Nat)
  | chatOrderQuery (sid oid : Str) (order : Order) (verificationInfo : Option Str)
  | chatVerifyMessage (sid : Str) (message : Str)
  | mobileVerify (token oid : Str) (order : Order) (identifier : Str)
  deriving DecidableEq, Repr

/-- The tail of `handleOrderQuery` for a not-yet-verified order: try the
same-message verification info if present, else record the pending pair;
a failed attempt also records the pending pair for retry. -/
def chatRecordAttempt (s : SessionState) (sid oid : Str) (order : Order)
    (verificationInfo : Option Str) : SessionState :=
  match verificationInfo with
  | some info =>
    if verifyCustomerOwnership order info then
      match s.sessions sid with
      | some (.legacySet l) =>
        { s with sessions := mapSet s.sessions sid (.legacySet (addId l oid)) }
      | _ =>
        { s with sessions := mapSet s.sessions sid (.legacySet (addId [] oid)) }
    else { s with pending := mapSet s.pending sid (oid, order) }
  | none => { s with pending := mapSet s.pending sid (oid, order) }

/-- One step of the session store, transcribed from the handlers.

In the chat flow, a session stored as an object makes
`verifiedOrders.has` / `verifiedOrders.add` a TypeError: the request
aborts through the error middleware and whatever had not yet been mutated
stays as it was (in `handleVerification` the pending record has already
been deleted when the add is reached). -/
def step (s : SessionState) : Event → SessionState
  | .createSession token now =>
    { s with sessions := mapSet s.sessions token (.obj [] (some (now + SESSION_EXPIRY))) }
  | .chatEnsureSession token now =>
    match s.sessions token with
    | none => { s with sessions := mapSet s.sessions token (.obj [] none) }
    | some (.obj _ (some expiresAt)) =>
      if expiresAt < now then { s with sessions := mapDel s.sessions token } else s
    | some _ => s
  | .chatOrderQuery sid oid order verificationInfo =>
    match s.sessions sid with
    | some (.obj _ _) => s
    | some (.legacySet l) =>
      if l.contains oid then s
      else chatRecordAttempt s sid oid order verificationInfo
    | none => chatRecordAttempt s sid oid order verificationInfo
  | .chatVerifyMessage sid message =>
    match s.pending sid with
    | none => s
    | some (oid, order) =>
      if verifyCustomerOwnership order (trimStr message) then
        let s2 := { s with pending := mapDel s.pending sid }
        match s.sessions sid with
        | some (.legacySet l) =>
          { s2 with sessions := mapSet s.sessions sid (.legacySet (addId l oid)) }
        | none =>
          { s2 with sessions := mapSet s.sessions sid (.legacySet (addId [] oid)) }
        | some (.obj _ _) => s2
      else s
  | .mobileVerify token oid order identifier =>
    if verifyCustomerOwnership order identifier then
      match s.sessions token with
      | none => { s with sessions := mapSet s.sessions token (.obj (addId [] oid) none) }
      | some (.obj v e) => { s with sessions := mapSet s.sessions token (.obj (addId v oid) e) }
      | some (.legacySet l) => { s with sessions := mapSet s.sessions token (.legacySet (addId l oid)) }
    else s

/-- Run a list of events from a state. -/
def runEvents (s : SessionState) (evs : List Event) : SessionState :=
  evs.foldl step s

/-- The verified-orders membership read used by the mobile `track` and
`driver-location` endpoints:
`const verifiedOrders = session?.verifiedOrders || session` followed by
`verifiedOrders instanceof Set ? verifiedOrders.has(orderId) : …`. -/
def isVerifiedRead (sessions : Str → Option SessVal) (token oid : Str) : Bool :=
  match sessions token with
  | none => false
  | some (.legacySet l) => l.contains oid
  | some (.obj v _) => v.contains oid

/-- The verification gate of `GET /api/v1/orders/:orderId/track` (and of
`driver-location`): the request time is a parameter of the request, but
the handler never consults `expiresAt`, so the gate ignores it. -/
def trackVerificationGate (sessions : Str → Option SessVal) (_now : Nat)
    (token oid : Str) : Bool :=
  isVerifiedRead sessions token oid

/-- A step records a verification of `oid` for session `sid`: one of the
three verification paths runs `verifyCustomerOwnership` successfully and
completes its `add` (in the chat paths that also requires the session not
to be stored in the object shape, on which the add would throw). -/
def objSession (s : SessionState) (sid : Str) : Bool :=
  match s.sessions sid with
  | some (.obj _ _) => true
  | _ => false

/-- See `objSession`; the disjuncts follow the three verification paths. -/
def recordsVerification (s : SessionState) (e : Event) (sid oid : Str) : Prop :=
  (∃ order info, e = .chatOrderQuery sid oid order (some info) ∧
    verifyCustomerOwnership order info = true ∧ objSession s sid = false) ∨
  (∃ msg order, e = .chatVerifyMessage sid msg ∧ s.pending sid = some (oid, order) ∧
    verifyCustomerOwnership order (trimStr msg) = true ∧ objSession s sid = false) ∨
  (∃ order ident, e = .mobileVerify sid oid order ident ∧
    verifyCustomerOwnership order ident = true)

/-! ## Fixtures and auxiliary definitions used by the theorems -/

/-- The verified-order set carried by a session value. -/
def SessVal.verified : SessVal → List Str
  | .legacySet l => l
  | .obj v _ => v

/-- The phone-match rule exactly as the claim words it: after normalizing
both sides to digits-only keeping the last 10, the identifier has at least
4 digits and the numbers are equal, or one is a suffix of the other, or
the last 4 digits agree — and nothing else passes.  Stated from the
specification's words, for comparison with the code's `phoneCheck`. -/
def claimedPhoneRule (orderPhoneRaw identifierRaw : Str) : Prop :=
  4 ≤ (normalizePhone identifierRaw).length ∧
    (normalizePhone orderPhoneRaw = normalizePhone identifierRaw ∨
      normalizePhone identifierRaw <:+ normalizePhone orderPhoneRaw ∨
      normalizePhone orderPhoneRaw <:+ normalizePhone identifierRaw ∨
      takeLast 4 (normalizePhone orderPhoneRaw) =
        takeLast 4 (normalizePhone identifierRaw))

/-- A stop on the example route "R1" of the claim's concrete scenario. -/
def mkStop (id seq : Nat) (status : Str) : Order :=
  { customerOrderId := id, orderStatus := status, phone := [], email := [],
    firstName := [], lastName := [], address := [], deliveryAssociate := str "R1",
    deliverySeq := some seq }

/-- The claim's example route: 5 orders, 3 DELIVERED at sequences 1-3 and
2 pending at sequences 4-5. -/
def exRoute5 : List Order :=
  [mkStop 1 1 DELIVERED_STATUS, mkStop 2 2 DELIVERED_STATUS, mkStop 3 3 DELIVERED_STATUS,
    mkStop 4 4 (str "OUT_FOR_DELIVERY"), mkStop 5 5 (str "OUT_FOR_DELIVERY")]

/-- A concrete order used by witnesses: first name "John". -/
def wOrder : Order :=
  { customerOrderId := 9, orderStatus := str "PLACED", phone := [], email := [],
    firstName := str "John", lastName := [], address := [], deliveryAssociate := [],
    deliverySeq := none }

/-! ## Helper lemmas on the string model -/

theorem char_toNat_ofNat {n : Nat} (h : n < 55296) : (Char.ofNat n).toNat = n := by
  have hv : n.isValidChar := Or.inl h
  simp [Char.ofNat, hv, Char.ofNatAux, Char.toNat, UInt32.toNat]

theorem isWhitespace_iff_toNat (c : Char) :
    c.isWhitespace = true ↔ (c.toNat = 32 ∨ c.toNat = 9 ∨ c.toNat = 13 ∨ c.toNat = 10) := by
  simp [Char.isWhitespace, Char.ext_iff, Char.toNat, UInt32.ext_iff, UInt32.toNat]
  omega

theorem isDigit_iff_toNat (c : Char) :
    c.isDigit = true ↔ (48 ≤ c.toNat ∧ c.toNat ≤ 57) := by
  have h1 : (UInt32.toBitVec 48).toNat = 48 := rfl
  have h2 : (UInt32.toBitVec 57).toNat = 57 := rfl
  simp only [Char.isDigit, Bool.and_eq_true, decide_eq_true_eq, Char.le_def, UInt32.le_def,
    BitVec.le_def, Char.toNat, UInt32.toNat]
  omega

/-- ASCII lower-casing does not create or destroy whitespace. -/
theorem lowerChar_isWhitespace (c : Char) :
    (lowerChar c).isWhitespace = c.isWhitespace := by
  by_cases hws : c.isWhitespace = true
  · have ht := (isWhitespace_iff_toNat c).1 hws
    unfold lowerChar
    rw [if_neg (by omega)]
  · have hf : c.isWhitespace = false := by
      revert hws; cases c.isWhitespace <;> simp
    unfold lowerChar
    split
    · rename_i hr
      have h1 := char_toNat_ofNat (n := c.toNat + 32) (by omega)
      rw [hf]
      cases h2 : (Char.ofNat (c.toNat + 32)).isWhitespace with
      | false => rfl
      | true =>
        have := (isWhitespace_iff_toNat _).1 h2
        omega
    · rw [hf]

theorem filter_dropWhile_of_imp {p q : Char → Bool}
    (h : ∀ c, q c = true → p c = false) :
    ∀ l : Str, (l.dropWhile q).filter p = l.filter p := by
  intro l
  induction l with
  | nil => rfl
  | cons c t ih =>
    by_cases hq : q c = true
    · rw [List.dropWhile_cons, if_pos hq, ih, List.filter_cons, h c hq]
      simp
    · rw [List.dropWhile_cons, if_neg hq]

/-- Filtering through a predicate that rejects whitespace ignores trimming. -/
theorem filter_trimStr {p : Char → Bool}
    (h : ∀ c, c.isWhitespace = true → p c = false) (l : Str) :
    (trimStr l).filter p = l.filter p := by
  unfold trimStr trimRight trimLeft
  rw [List.filter_reverse, filter_dropWhile_of_imp h, List.filter_reverse,
    List.reverse_reverse, filter_dropWhile_of_imp h]

theorem normalizePhone_trimStr (l : Str) :
    normalizePhone (trimStr l) = normalizePhone l := by
  unfold normalizePhone
  rw [filter_trimStr]
  intro c hc
  have := (isWhitespace_iff_toNat c).1 hc
  cases hd : c.isDigit with
  | false => rfl
  | true => have := (isDigit_iff_toNat c).1 hd; omega

theorem dropWhile_map_comm {f : Char → Char} {q : Char → Bool}
    (h : ∀ c, q (f c) = q c) :
    ∀ l : Str, (l.map f).dropWhile q = (l.dropWhile q).map f := by
  intro l
  induction l with
  | nil => rfl
  | cons c t ih =>
    rw [List.map_cons, List.dropWhile_cons, List.dropWhile_cons, h c]
    by_cases hq : q c = true
    · rw [if_pos hq, if_pos hq, ih]
    · rw [if_neg hq, if_neg hq, List.map_cons]

/-- `toLowerCase` and `trim` commute. -/
theorem toLowerStr_trimStr (l : Str) :
    toLowerStr (trimStr l) = trimStr (toLowerStr l) := by
  unfold toLowerStr trimStr trimRight trimLeft
  rw [List.map_reverse, ← dropWhile_map_comm lowerChar_isWhitespace,
    List.map_reverse, ← dropWhile_map_comm lowerChar_isWhitespace]

theorem dropWhile_head_not {p : Char → Bool} :
    ∀ (l : Str) {c : Char} {t : Str}, l.dropWhile p = c :: t → p c = false
  | [], _, _, h => by simp at h
  | a :: s, c, t, h => by
    rw [List.dropWhile_cons] at h
    by_cases hp : p a = true
    · rw [if_pos hp] at h
      exact dropWhile_head_not s h
    · rw [if_neg hp] at h
      cases h
      simpa using hp

theorem dropWhile_idem {p : Char → Bool} (l : Str) :
    (l.dropWhile p).dropWhile p = l.dropWhile p := by
  cases h : l.dropWhile p with
  | nil => rfl
  | cons c t => rw [List.dropWhile_cons, if_neg (by rw [dropWhile_head_not l h]; simp)]

theorem dropWhile_prefix_of_clean {p : Char → Bool} {v u : Str}
    (hpre : v <+: u) (hu : u.dropWhile p = u) : v.dropWhile p = v := by
  cases v with
  | nil => rfl
  | cons c t =>
    obtain ⟨rest, hrest⟩ := hpre
    have hc : p c = false :=
      dropWhile_head_not u (c := c) (t := t ++ rest) (by rw [hu, ← hrest]; rfl)
    rw [List.dropWhile_cons, if_neg (by rw [hc]; simp)]

theorem trimRight_prefix_of_self (u : Str) : trimRight u <+: u := by
  unfold trimRight
  have h1 : List.dropWhile Char.isWhitespace u.reverse <:+ u.reverse :=
    List.dropWhile_suffix _
  have h2 := List.reverse_prefix.2 h1
  rwa [List.reverse_reverse] at h2

theorem trimRight_idem (u : Str) : trimRight (trimRight u) = trimRight u := by
  unfold trimRight
  rw [List.reverse_reverse, dropWhile_idem]

theorem trimStr_idem (l : Str) : trimStr (trimStr l) = trimStr l := by
  unfold trimStr
  have h1 : trimLeft (trimRight (trimLeft l)) = trimRight (trimLeft l) := by
    apply dropWhile_prefix_of_clean (trimRight_prefix_of_self _)
    unfold trimLeft
    exact dropWhile_idem l
  rw [h1, trimRight_idem]

theorem normalizeName_trimStr (l : Str) :
    normalizeName (trimStr l) = normalizeName l := by
  unfold normalizeName
  rw [toLowerStr_trimStr, trimStr_idem]

/-- JS `includes` agrees with list containment. -/
theorem isSubstr_iff {n h : Str} : isSubstr n h = true ↔ n <:+: h := by
  induction h with
  | nil =>
    show n.isPrefixOf [] = true ↔ _
    rw [List.isPrefixOf_iff_prefix, List.prefix_nil, List.infix_nil]
  | cons c t ih =>
    show (n.isPrefixOf (c :: t) || isSubstr n t) = true ↔ _
    rw [Bool.or_eq_true, List.isPrefixOf_iff_prefix, ih, List.infix_cons_iff]

/-! ## C3: the fuzzy matcher -/

/-- C3: `fuzzyMatch(input, target, threshold)` strips both strings to
alphanumeric lowercase, rejects when either stripped string is shorter
than 2, accepts immediately on equality or containment either way, and
otherwise accepts exactly when the forward-lookahead walk finds enough
characters for `matchedChars / min(lengths) * 100` to meet the threshold
(stated in exact arithmetic); and the two specified examples evaluate as
stated. -/
theorem fuzzyMatch_characterization :
    (∀ (input target : Str) (t : Nat),
      fuzzyMatch input target t = true ↔
        (2 ≤ (stripAlnum input).length ∧ 2 ≤ (stripAlnum target).length ∧
          (stripAlnum input = stripAlnum target ∨
            stripAlnum target <:+: stripAlnum input ∨
            stripAlnum input <:+: stripAlnum target ∨
            t * min (stripAlnum input).length (stripAlnum target).length ≤
              fuzzyScan (stripAlnum input) (stripAlnum target) * 100))) ∧
    fuzzyMatch (str "jon") (str "john") 60 = true ∧
    fuzzyMatch (str "xyz") (str "john") 60 = false := by
  refine ⟨?_, by decide, by decide⟩
  intro input target t
  unfold fuzzyMatch
  cases hi : input.isEmpty with
  | true =>
    have hsi : stripAlnum input = [] := by rw [List.isEmpty_iff.1 hi]; rfl
    simp [hsi]
  | false =>
  cases ht : target.isEmpty with
  | true =>
    have hst : stripAlnum target = [] := by rw [List.isEmpty_iff.1 ht]; rfl
    simp [hst]
  | false =>
  simp only [Bool.or_self, Bool.false_eq_true, if_false]
  rcases Nat.lt_or_ge (stripAlnum input).length 2 with hA | hA
  · rw [if_pos (by simp [hA])]
    constructor
    · intro h; simp at h
    · rintro ⟨h1, -, -⟩; omega
  rcases Nat.lt_or_ge (stripAlnum target).length 2 with hB | hB
  · rw [if_pos (by simp [hB])]
    constructor
    · intro h; simp at h
    · rintro ⟨-, h2, -⟩; omega
  rw [if_neg (by simp; omega)]
  by_cases heq : stripAlnum input = stripAlnum target
  · rw [if_pos (by simp [heq])]
    exact ⟨fun _ => ⟨hA, hB, Or.inl heq⟩, fun _ => rfl⟩
  rw [if_neg (by simp [heq])]
  by_cases hsub : (isSubstr (stripAlnum target) (stripAlnum input) ||
      isSubstr (stripAlnum input) (stripAlnum target)) = true
  · rw [if_pos hsub]
    rw [Bool.or_eq_true, isSubstr_iff, isSubstr_iff] at hsub
    exact ⟨fun _ => ⟨hA, hB, Or.inr (hsub.imp id Or.inl)⟩, fun _ => rfl⟩
  · rw [if_neg hsub]
    rw [Bool.or_eq_true, isSubstr_iff, isSubstr_iff] at hsub
    push_neg at hsub
    rw [decide_eq_true_eq]
    constructor
    · intro h
      exact ⟨hA, hB, Or.inr (Or.inr (Or.inr h))⟩
    · rintro ⟨-, -, h | h | h | h⟩
      · exact absurd h heq
      · exact absurd h hsub.1
      · exact absurd h hsub.2
      · exact h

/-! ## C4: the phone check -/

theorem takeLast_suffix (n : Nat) (s : Str) : takeLast n s <:+ s :=
  List.drop_suffix _ _

theorem takeLast_length (n : Nat) (s : Str) :
    (takeLast n s).length = min n s.length := by
  unfold takeLast
  rw [List.length_drop]
  omega

theorem takeLast_all {n : Nat} {s : Str} (h : s.length ≤ n) : takeLast n s = s := by
  unfold takeLast
  rw [Nat.sub_eq_zero_of_le h, List.drop_zero]

theorem suffix_eq_takeLast {v s : Str} (h : v <:+ s) : v = takeLast v.length s :=
  List.suffix_iff_eq_drop.1 h

/-- C4 counterexample: for order phone `"5551234567"` and identifier
`"5512"` the code's phone check succeeds — the identifier's digits occur
contiguously *inside* the number (`orderPhone.includes(inputPhone)`) —
although the normalized numbers are not equal, neither is a suffix of the
other, and the last-4 digits differ ("4567" vs "5512").  This refutes the
claim's "no other digit pattern passes the phone check". -/
theorem phoneCheck_counterexample :
    phoneCheck (normalizePhone (str "5551234567")) (normalizePhone (str "5512")) = true ∧
    verifyCustomerOwnership
      { customerOrderId := 2, orderStatus := str "PLACED", phone := str "5551234567",
        email := [], firstName := [], lastName := [], address := [],
        deliveryAssociate := [], deliverySeq := none } (str "5512") = true ∧
    ¬ claimedPhoneRule (str "5551234567") (str "5512") :=
  ⟨by decide, by decide, by unfold claimedPhoneRule; decide⟩

/-- C4 amended: the phone check succeeds exactly when the order's
normalized phone is nonempty, the identifier carries at least 4 digits,
and the normalized numbers are equal, or one is a suffix of the other,
or the identifier's digits occur contiguously inside the order's digits
(the clause the claim omitted), or the last-4 digits agree. -/
theorem phoneCheck_iff (op ip : Str) :
    phoneCheck op ip = true ↔
      (op ≠ [] ∧ 4 ≤ ip.length ∧
        (op = ip ∨ ip <:+ op ∨ op <:+ ip ∨ ip <:+: op ∨
          takeLast 4 op = takeLast 4 ip)) := by
  unfold phoneCheck
  split
  · rename_i hcond
    simp only [Bool.and_eq_true, decide_eq_true_eq] at hcond
    obtain ⟨⟨h1, h2⟩, hip4⟩ := hcond
    have hopne : op ≠ [] := by
      intro h
      rw [h] at h1
      simp at h1
    rw [Bool.or_eq_true, Bool.or_eq_true, Bool.or_eq_true, beq_iff_eq,
      List.isSuffixOf_iff_suffix, isSubstr_iff, List.isSuffixOf_iff_suffix]
    constructor
    · rintro (((h | h) | h) | h)
      · exact ⟨hopne, hip4, Or.inl h⟩
      · exact ⟨hopne, hip4, Or.inr (Or.inl h)⟩
      · exact ⟨hopne, hip4, Or.inr (Or.inr (Or.inr (Or.inl h)))⟩
      · rcases le_or_lt op.length 4 with hlen | hlen
        · rw [takeLast_all hlen] at h
          exact ⟨hopne, hip4, Or.inr (Or.inr (Or.inl h))⟩
        · have h4 : (takeLast 4 op).length = 4 := by
            rw [takeLast_length]; omega
          have heq := suffix_eq_takeLast h
          rw [h4] at heq
          exact ⟨hopne, hip4, Or.inr (Or.inr (Or.inr (Or.inr heq)))⟩
    · rintro ⟨-, -, h | h | h | h | h⟩
      · exact Or.inl (Or.inl (Or.inl h))
      · exact Or.inl (Or.inl (Or.inr h))
      · exact Or.inr ((takeLast_suffix 4 op).trans h)
      · exact Or.inl (Or.inr h)
      · rw [h]
        exact Or.inr (takeLast_suffix 4 ip)
  · rename_i hcond
    constructor
    · intro h; cases h
    · rintro ⟨hopne, hip4, -⟩
      have h1 : op.isEmpty = false := by
        cases h : op.isEmpty with
        | false => rfl
        | true => exact absurd (List.isEmpty_iff.1 h) hopne
      have h2 : ip.isEmpty = false := by
        cases h : ip.isEmpty with
        | false => rfl
        | true => rw [List.isEmpty_iff.1 h] at hip4; simp at hip4
      exact (hcond (by simp [h1, h2, hip4])).elim

/-- `phoneCheck_iff` instantiated at a passing input: the identifier
"1234" is the 4-digit suffix of "7325551234". -/
theorem phoneCheck_iff_witness :
    phoneCheck (str "7325551234") (str "1234") = true :=
  (phoneCheck_iff (str "7325551234") (str "1234")).2
    ⟨by decide, by decide, Or.inr (Or.inl (by decide))⟩

/-! ## C7 and C8: the upstream caches -/

/-- On a failed upstream outcome, any cache read returns what the cache
already holds and leaves the state untouched. -/
theorem cachedFetch_failure (ttl : Nat) (s : CacheState) (now : Nat)
    (u : FetchOutcome) (hu : u.failed = true) :
    (cachedFetch ttl s now u).returned = s.cache.getD [] ∧
    (cachedFetch ttl s now u).state = s := by
  cases hc : s.cache with
  | none =>
    cases u with
    | netError => simp [cachedFetch, hc]
    | payload items =>
      cases items with
      | none => simp [cachedFetch, hc]
      | some its => simp [FetchOutcome.failed] at hu
  | some c =>
    by_cases hfresh : now - s.lastFetchTime < ttl
    · simp [cachedFetch, hc, hfresh]
    · cases u with
      | netError => simp [cachedFetch, hc, hfresh]
      | payload items =>
        cases items with
        | none => simp [cachedFetch, hc, hfresh]
        | some its => simp [FetchOutcome.failed] at hu

/-- C7: a fetch whose upstream request fails (network error or a payload
without `items`) returns what the cache already holds — the last good
snapshot, or the empty collection when none exists yet — and leaves the
cache state untouched; the failure is never surfaced (both functions are
total and always return an order list).  Both the wide-window and the
today cache behave this way. -/
theorem fetch_failure_serves_last_snapshot (s : CacheState) (now : Nat)
    (u : FetchOutcome) (hu : u.failed = true) :
    ((fetchOrders s now u).returned = s.cache.getD [] ∧
      (fetchOrders s now u).state = s) ∧
    ((fetchTodaysOrders s now u).returned = s.cache.getD [] ∧
      (fetchTodaysOrders s now u).state = s) :=
  ⟨cachedFetch_failure CACHE_DURATION s now u hu,
    cachedFetch_failure TODAYS_CACHE_DURATION s now u hu⟩

/-- `fetch_failure_serves_last_snapshot` at a concrete state: a cache
holding a snapshot at time 0, read at time 50000 with a network error,
still returns the snapshot. -/
theorem fetch_failure_serves_last_snapshot_witness :
    FetchOutcome.netError.failed = true ∧
    ((fetchOrders ⟨some [], 0⟩ 50000 .netError).returned = [] ∧
      (fetchOrders ⟨some [], 0⟩ 50000 .netError).state = (⟨some [], 0⟩ : CacheState)) ∧
    ((fetchTodaysOrders ⟨some [], 0⟩ 50000 .netError).returned = [] ∧
      (fetchTodaysOrders ⟨some [], 0⟩ 50000 .netError).state = (⟨some [], 0⟩ : CacheState)) :=
  ⟨by decide, fetch_failure_serves_last_snapshot ⟨some [], 0⟩ 50000 .netError (by decide)⟩

/-- C8 counterexample: a failed refresh does *not* wait out its own TTL.
With a snapshot fetched at time 0, a read at 30000 issues an upstream
request that fails; the claim says no new fetch should happen before
30000 + TTL, yet the very next read at 30001 already issues another
upstream request. -/
theorem failed_refresh_retries_immediately :
    (fetchOrders ⟨some [], 0⟩ 30000 .netError).fetched = true ∧
    (fetchOrders (fetchOrders ⟨some [], 0⟩ 30000 .netError).state 30001 .netError).fetched = true ∧
    30001 < 30000 + CACHE_DURATION :=
  ⟨by decide, by decide, by decide⟩

/-- C8 amended: a failed refresh leaves the cache timestamp untouched, so
an upstream fetch is attempted on a read exactly when no snapshot exists
or the *last successful* fetch is at least one TTL old — after a failure
the next stale read retries immediately rather than waiting out a TTL
from the failed attempt. -/
theorem fetch_attempt_iff_stale (s : CacheState) (now : Nat) (u : FetchOutcome) :
    ((fetchOrders s now u).fetched = true ↔
      (s.cache = none ∨ CACHE_DURATION ≤ now - s.lastFetchTime)) ∧
    (u.failed = true → (fetchOrders s now u).state = s) := by
  constructor
  · cases hc : s.cache with
    | none =>
      cases u with
      | netError => simp [fetchOrders, cachedFetch, hc]
      | payload items => cases items <;> simp [fetchOrders, cachedFetch, hc]
    | some c =>
      by_cases hfresh : now - s.lastFetchTime < CACHE_DURATION
      · have hn : ¬ CACHE_DURATION ≤ now - s.lastFetchTime := by omega
        simp [fetchOrders, cachedFetch, hc, hfresh, hn]
      · have h2 : CACHE_DURATION ≤ now - s.lastFetchTime := by omega
        cases u with
        | netError => simp [fetchOrders, cachedFetch, hc, hfresh, h2]
        | payload items => cases items <;> simp [fetchOrders, cachedFetch, hc, hfresh, h2]
  · intro hu
    exact (cachedFetch_failure CACHE_DURATION s now u hu).2

/-- `fetch_attempt_iff_stale` at a concrete input discharging its
hypothesis: a failing read at time 40000 over a snapshot from time 0
leaves the state unchanged. -/
theorem fetch_attempt_iff_stale_witness :
    (fetchOrders ⟨some [], 0⟩ 40000 .netError).state = (⟨some [], 0⟩ : CacheState) :=
  (fetch_attempt_iff_stale ⟨some [], 0⟩ 40000 .netError).2 (by decide)

/-! ## C5: the ETA estimator -/

/-- C5: the per-status delivery-estimate policy.  DELIVERED and CANCELLED
give 0 stops away and 0 minutes; PLACED and STARTED give null numeric
fields; COMPLETED gives stopsAway = max(0, deliverySeq − completedStops)
when route progress is available and deliverySeq itself otherwise, with
minutes = stopsAway·12 + 15; OUT_FOR_DELIVERY uses the same stopsAway with
minutes = max(stopsAway·12, 5), displayed upper bound minutes + 15, and
the arriving-imminently message exactly when stopsAway = 0 (bounds 5 and
20 there); any other status yields the calculating placeholder. -/
theorem eta_policy (orders : List Order) (order : Order) (route : Option Str) :
    (order.orderStatus = str "DELIVERED" →
      (getDeliveryEstimate orders order route).stopsAway = some 0 ∧
      (getDeliveryEstimate orders order route).estimatedMinutes = some 0) ∧
    (order.orderStatus = str "CANCELLED" →
      (getDeliveryEstimate orders order route).stopsAway = some 0 ∧
      (getDeliveryEstimate orders order route).estimatedMinutes = some 0) ∧
    (order.orderStatus = str "PLACED" →
      (getDeliveryEstimate orders order route).stopsAway = none ∧
      (getDeliveryEstimate orders order route).estimatedMinutes = none) ∧
    (order.orderStatus = str "STARTED" →
      (getDeliveryEstimate orders order route).stopsAway = none ∧
      (getDeliveryEstimate orders order route).estimatedMinutes = none) ∧
    (order.orderStatus = str "COMPLETED" →
      ∃ sa : Nat,
        (getDeliveryEstimate orders order route).stopsAway = some sa ∧
        ((route.bind (getRouteProgress orders) = none ∧ sa = seqOrOne order) ∨
          (∃ rp, route.bind (getRouteProgress orders) = some rp ∧
            (sa : Int) = max 0 ((seqOrOne order : Int) - (rp.completedStops : Int)))) ∧
        (getDeliveryEstimate orders order route).estimatedMinutes = some (sa * 12 + 15)) ∧
    (order.orderStatus = str "OUT_FOR_DELIVERY" →
      ∃ sa : Nat,
        (getDeliveryEstimate orders order route).stopsAway = some sa ∧
        ((route.bind (getRouteProgress orders) = none ∧ sa = seqOrOne order) ∨
          (∃ rp, route.bind (getRouteProgress orders) = some rp ∧
            (sa : Int) = max 0 ((seqOrOne order : Int) - (rp.completedStops : Int)))) ∧
        (getDeliveryEstimate orders order route).estimatedMinutes = some (max (sa * 12) 5) ∧
        (getDeliveryEstimate orders order route).eta =
          natStr (max (sa * 12) 5) ++ str "-" ++ natStr (max (sa * 12) 5 + 15) ++ str " min" ∧
        ((getDeliveryEstimate orders order route).message =
            str "🎉 Driver is heading to you now! Arriving in 5-15 minutes." ↔ sa = 0) ∧
        (sa = 0 →
          (getDeliveryEstimate orders order route).estimatedMinutes = some 5 ∧
          (getDeliveryEstimate orders order route).eta = str "5-20 min")) ∧
    (order.orderStatus ≠ str "DELIVERED" → order.orderStatus ≠ str "CANCELLED" →
      order.orderStatus ≠ str "PLACED" → order.orderStatus ≠ str "STARTED" →
      order.orderStatus ≠ str "COMPLETED" → order.orderStatus ≠ str "OUT_FOR_DELIVERY" →
      (getDeliveryEstimate orders order route).stopsAway = none ∧
      (getDeliveryEstimate orders order route).estimatedMinutes = none ∧
      (getDeliveryEstimate orders order route).eta = str "Calculating...") := by
  refine ⟨?_, ?_, ?_, ?_, ?_, ?_, ?_⟩
  · intro h
    simp [getDeliveryEstimate, h]
  · intro h
    simp [getDeliveryEstimate, h,
      (show str "CANCELLED" ≠ str "DELIVERED" by decide)]
  · intro h
    simp [getDeliveryEstimate, h,
      (show str "PLACED" ≠ str "DELIVERED" by decide),
      (show str "PLACED" ≠ str "CANCELLED" by decide)]
  · intro h
    simp [getDeliveryEstimate, h,
      (show str "STARTED" ≠ str "DELIVERED" by decide),
      (show str "STARTED" ≠ str "CANCELLED" by decide),
      (show str "STARTED" ≠ str "PLACED" by decide)]
  · intro h
    simp only [getDeliveryEstimate, h, beq_iff_eq,
      if_neg (show ¬ str "COMPLETED" = str "DELIVERED" by decide),
      if_neg (show ¬ str "COMPLETED" = str "CANCELLED" by decide),
      if_neg (show ¬ str "COMPLETED" = str "PLACED" by decide),
      if_neg (show ¬ str "COMPLETED" = str "STARTED" by decide),
      if_pos (show str "COMPLETED" = str "COMPLETED" from rfl)]
    rcases hrp : route.bind (getRouteProgress orders) with _ | rp
    · refine ⟨seqOrOne order, ?_, Or.inl ⟨rfl, rfl⟩, ?_⟩ <;>
        simp [hrp, avgTimePerStop]
    · refine ⟨seqOrOne order - rp.completedStops, ?_, Or.inr ⟨rp, rfl, ?_⟩, ?_⟩
      · simp [hrp]
      · omega
      · simp [hrp, avgTimePerStop]
  · intro h
    simp only [getDeliveryEstimate, h, beq_iff_eq,
      if_neg (show ¬ str "OUT_FOR_DELIVERY" = str "DELIVERED" by decide),
      if_neg (show ¬ str "OUT_FOR_DELIVERY" = str "CANCELLED" by decide),
      if_neg (show ¬ str "OUT_FOR_DELIVERY" = str "PLACED" by decide),
      if_neg (show ¬ str "OUT_FOR_DELIVERY" = str "STARTED" by decide),
      if_neg (show ¬ str "OUT_FOR_DELIVERY" = str "COMPLETED" by decide),
      if_pos (show str "OUT_FOR_DELIVERY" = str "OUT_FOR_DELIVERY" from rfl)]
    rcases hrp : route.bind (getRouteProgress orders) with _ | rp
    · refine ⟨seqOrOne order, ?_, Or.inl ⟨rfl, rfl⟩, ?_, ?_, ?_, ?_⟩
      · simp [hrp]
      · simp [hrp, avgTimePerStop]
      · simp [hrp, avgTimePerStop]
      · simp only [hrp]
        by_cases hsa : seqOrOne order = 0
        · simp [hsa]
        · rw [if_neg hsa]
          refine iff_of_false ?_ hsa
          intro heq
          rw [show str "🚗 " = '🚗' :: [' '] from rfl] at heq
          simp only [List.cons_append] at heq
          rw [show str "🎉 Driver is heading to you now! Arriving in 5-15 minutes." =
            '🎉' :: str " Driver is heading to you now! Arriving in 5-15 minutes." from rfl] at heq
          exact absurd (List.head_eq_of_cons_eq heq) (by decide)
      · intro hsa
        simp only [hsa]
        constructor
        · simp [avgTimePerStop]
        · simp only [avgTimePerStop]
          simp
          decide
    · refine ⟨seqOrOne order - rp.completedStops, ?_, Or.inr ⟨rp, rfl, ?_⟩, ?_, ?_, ?_, ?_⟩
      · simp [hrp]
      · omega
      · simp [hrp, avgTimePerStop]
      · simp [hrp, avgTimePerStop]
      · simp only [hrp]
        by_cases hsa : seqOrOne order - rp.completedStops = 0
        · simp [hsa]
        · rw [if_neg hsa]
          refine iff_of_false ?_ hsa
          intro heq
          rw [show str "🚗 " = '🚗' :: [' '] from rfl] at heq
          simp only [List.cons_append] at heq
          rw [show str "🎉 Driver is heading to you now! Arriving in 5-15 minutes." =
            '🎉' :: str " Driver is heading to you now! Arriving in 5-15 minutes." from rfl] at heq
          exact absurd (List.head_eq_of_cons_eq heq) (by decide)
      · intro hsa
        simp only [hsa]
        constructor
        · simp [avgTimePerStop]
        · simp only [avgTimePerStop]
          simp
          decide
  · intro h1 h2 h3 h4 h5 h6
    simp [getDeliveryEstimate, h1, h2, h3, h4, h5, h6]

/-- `eta_policy` at a concrete delivered order, discharging the status
hypothesis. -/
theorem eta_policy_witness :
    (getDeliveryEstimate []
      { customerOrderId := 1, orderStatus := str "DELIVERED", phone := [], email := [],
        firstName := [], lastName := [], address := [], deliveryAssociate := [],
        deliverySeq := none } none).stopsAway = some 0 ∧
    (getDeliveryEstimate []
      { customerOrderId := 1, orderStatus := str "DELIVERED", phone := [], email := [],
        firstName := [], lastName := [], address := [], deliveryAssociate := [],
        deliverySeq := none } none).estimatedMinutes = some 0 :=
  (eta_policy []
    { customerOrderId := 1, orderStatus := str "DELIVERED", phone := [], email := [],
      firstName := [], lastName := [], address := [], deliveryAssociate := [],
      deliverySeq := none } none).1 rfl

/-! ## C6 and C10: the route aggregator -/

theorem insertBySeq_perm (o : Order) (l : List Order) :
    (insertBySeq o l).Perm (o :: l) := by
  induction l with
  | nil => exact List.Perm.refl _
  | cons x xs ih =>
    unfold insertBySeq
    split
    · exact (List.Perm.cons x ih).trans (List.Perm.swap o x xs)
    · exact List.Perm.refl _

theorem sortBySeq_perm (l : List Order) : (sortBySeq l).Perm l := by
  induction l with
  | nil => exact List.Perm.refl _
  | cons o os ih => exact (insertBySeq_perm o (sortBySeq os)).trans (List.Perm.cons o ih)

theorem insertBySeq_sorted {o : Order} {l : List Order}
    (h : l.Pairwise (fun a b => seqKey a ≤ seqKey b)) :
    (insertBySeq o l).Pairwise (fun a b => seqKey a ≤ seqKey b) := by
  induction l with
  | nil => simp [insertBySeq]
  | cons x xs ih =>
    rw [List.pairwise_cons] at h
    obtain ⟨hx, hxs⟩ := h
    unfold insertBySeq
    split
    · rename_i hlt
      rw [List.pairwise_cons]
      refine ⟨?_, ih hxs⟩
      intro b hb
      rcases List.mem_cons.1 ((insertBySeq_perm o xs).mem_iff.1 hb) with rfl | hbx
      · omega
      · exact hx b hbx
    · rename_i hge
      have hox : seqKey o ≤ seqKey x := by omega
      rw [List.pairwise_cons]
      refine ⟨?_, List.pairwise_cons.2 ⟨hx, hxs⟩⟩
      intro b hb
      rcases List.mem_cons.1 hb with rfl | hbx
      · exact hox
      · exact hox.trans (hx b hbx)

theorem sortBySeq_sorted (l : List Order) :
    (sortBySeq l).Pairwise (fun a b => seqKey a ≤ seqKey b) := by
  induction l with
  | nil => simp [sortBySeq]
  | cons o os ih => exact insertBySeq_sorted ih

theorem find?_split {p : Order → Bool} :
    ∀ {l : List Order} {c : Order}, l.find? p = some c →
      ∃ l1 l2, l = l1 ++ c :: l2 ∧ (∀ x ∈ l1, p x = false) ∧ p c = true := by
  intro l
  induction l with
  | nil => intro c h; simp at h
  | cons a t ih =>
    intro c h
    rw [List.find?_cons] at h
    cases hp : p a with
    | true =>
      rw [hp] at h
      cases Option.some.inj h
      exact ⟨[], t, rfl, by simp, hp⟩
    | false =>
      rw [hp] at h
      obtain ⟨l1, l2, h1, h2, h3⟩ := ih h
      refine ⟨a :: l1, l2, by rw [h1]; rfl, ?_, h3⟩
      intro x hx
      rcases List.mem_cons.1 hx with rfl | hxl
      · exact hp
      · exact h2 x hxl

theorem pairwise_le_getLast {l : List Order} {d : Order}
    (hs : l.Pairwise (fun a b => seqKey a ≤ seqKey b)) (h : l.getLast? = some d) :
    ∀ x ∈ l, seqKey x ≤ seqKey d := by
  obtain ⟨ys, rfl⟩ := List.getLast?_eq_some_iff.1 h
  intro x hx
  rcases List.mem_append.1 hx with hxy | hxd
  · exact (List.pairwise_append.1 hs).2.2 x hxy d (by simp)
  · rw [List.mem_singleton] at hxd
    rw [hxd]

/-- C6: for every route label (nonempty, not the quoted-empty artifact)
matched after quote-stripping by at least one cached order,
`getRouteProgress` reports: totalStops = the number of matching orders,
completedStops = the number of them DELIVERED, pendingStops their
difference, progressPercent = round(completed/total*100) in exact
arithmetic, the order list sorted ascending by delivery sequence (missing
treated as 0, a permutation of the matching set); the current stop is the
first non-DELIVERED order in sorted order (all earlier ones DELIVERED),
with currentStopSeq = totalStops when everything is delivered; and the
last-delivered stop is a DELIVERED order of maximal sequence key.  The
claim's 5-order example evaluates exactly as stated. -/
theorem route_progress_characterization :
    (∀ (orders : List Order) (routeId : Str) (ros : List Order),
      routeId ≠ [] → routeId ≠ str "\x22\x22" →
      ros = orders.filter
        (fun o => stripQuotes o.deliveryAssociate == stripQuotes routeId) →
      ros ≠ [] →
      ∃ r, getRouteProgress orders routeId = some r ∧
        r.totalStops = ros.length ∧
        r.completedStops = ros.countP (fun o => o.orderStatus == DELIVERED_STATUS) ∧
        r.pendingStops = r.totalStops - r.completedStops ∧
        r.progressPercent = (200 * r.completedStops + r.totalStops) / (2 * r.totalStops) ∧
        r.orders.Perm ros ∧
        r.orders.Pairwise (fun a b => seqKey a ≤ seqKey b) ∧
        ((∀ o ∈ ros, o.orderStatus = DELIVERED_STATUS) →
          r.currentStopSeq = some r.totalStops) ∧
        ((∃ o ∈ ros, o.orderStatus ≠ DELIVERED_STATUS) →
          ∃ l1 c l2, r.orders = l1 ++ c :: l2 ∧
            (∀ o ∈ l1, o.orderStatus = DELIVERED_STATUS) ∧
            c.orderStatus ≠ DELIVERED_STATUS ∧
            r.currentStopSeq = c.deliverySeq ∧
            r.currentStopAddress = some c.address) ∧
        ((∃ o ∈ ros, o.orderStatus = DELIVERED_STATUS) →
          ∃ d, d ∈ ros ∧ d.orderStatus = DELIVERED_STATUS ∧
            r.lastDeliveredAddress = some d.address ∧
            ∀ o ∈ ros, o.orderStatus = DELIVERED_STATUS → seqKey o ≤ seqKey d)) ∧
    (getRouteProgress exRoute5 (str "R1")).map RouteProgress.completedStops = some 3 ∧
    (getRouteProgress exRoute5 (str "R1")).map RouteProgress.totalStops = some 5 ∧
    (getRouteProgress exRoute5 (str "R1")).map RouteProgress.progressPercent = some 60 ∧
    (getRouteProgress exRoute5 (str "R1")).map RouteProgress.currentStopSeq = some (some 4) := by
  refine ⟨?_, by decide, by decide, by decide, by decide⟩
  intro orders routeId ros h1 h2 hros hne
  have hempty1 : routeId.isEmpty = false := by
    cases h : routeId.isEmpty with
    | false => rfl
    | true => exact absurd (List.isEmpty_iff.1 h) h1
  have hbeq : (routeId == str "\x22\x22") = false := beq_eq_false_iff_ne.2 h2
  have hfil : ros.isEmpty = false := by
    cases h : ros.isEmpty with
    | false => rfl
    | true => exact absurd (List.isEmpty_iff.1 h) hne
  have hperm := sortBySeq_perm ros
  have hsorted := sortBySeq_sorted ros
  have hrp : getRouteProgress orders routeId = some {
      routeId := routeId
      totalStops := (sortBySeq ros).length
      completedStops := ((sortBySeq ros).filter
        (fun o => o.orderStatus == DELIVERED_STATUS)).length
      pendingStops := (sortBySeq ros).length - ((sortBySeq ros).filter
        (fun o => o.orderStatus == DELIVERED_STATUS)).length
      currentStopSeq :=
        match (sortBySeq ros).find? (fun o => o.orderStatus != DELIVERED_STATUS) with
        | some o => o.deliverySeq
        | none => some (sortBySeq ros).length
      currentStopAddress := ((sortBySeq ros).find?
        (fun o => o.orderStatus != DELIVERED_STATUS)).map (fun o => o.address)
      lastDeliveredAddress := (((sortBySeq ros).filter
        (fun o => o.orderStatus == DELIVERED_STATUS)).getLast?).map (fun o => o.address)
      progressPercent := roundPercent (((sortBySeq ros).filter
        (fun o => o.orderStatus == DELIVERED_STATUS)).length) (sortBySeq ros).length
      orders := sortBySeq ros } := by
    unfold getRouteProgress
    rw [← hros, if_neg (by simp [hempty1, hbeq]), if_neg (by simp [hfil])]
  refine ⟨_, hrp, ?_, ?_, rfl, rfl, hperm, hsorted, ?_, ?_, ?_⟩
  · exact hperm.length_eq
  · rw [← List.countP_eq_length_filter]
    exact hperm.countP_eq _
  · intro hall
    have hnone : (sortBySeq ros).find? (fun o => o.orderStatus != DELIVERED_STATUS) = none := by
      rw [List.find?_eq_none]
      intro x hx
      have hxros := hperm.mem_iff.1 hx
      simp [hall x hxros]
    simp only [hnone]
  · intro ⟨o, ho, host⟩
    have hsome : ((sortBySeq ros).find?
        (fun o => o.orderStatus != DELIVERED_STATUS)).isSome = true := by
      rw [List.find?_isSome]
      exact ⟨o, hperm.mem_iff.2 ho, bne_iff_ne.2 host⟩
    obtain ⟨c, hc⟩ := Option.isSome_iff_exists.1 hsome
    obtain ⟨l1, l2, hsplit, hprefix, hpc⟩ := find?_split hc
    refine ⟨l1, c, l2, hsplit, ?_, bne_iff_ne.1 hpc, ?_, ?_⟩
    · intro x hx
      have := hprefix x hx
      revert this
      cases hbe : (x.orderStatus == DELIVERED_STATUS) with
      | true =>
        intro
        exact beq_iff_eq.1 hbe
      | false =>
        intro hcontra
        rw [bne, hbe] at hcontra
        simp at hcontra
    · rw [hc]
    · rw [hc]
      rfl
  · intro ⟨o, ho, host⟩
    have hmemf : o ∈ (sortBySeq ros).filter (fun x => x.orderStatus == DELIVERED_STATUS) :=
      List.mem_filter.2 ⟨hperm.mem_iff.2 ho, beq_iff_eq.2 host⟩
    have hfne : (sortBySeq ros).filter (fun x => x.orderStatus == DELIVERED_STATUS) ≠ [] := by
      intro hcontra
      rw [hcontra] at hmemf
      simp at hmemf
    obtain ⟨d, hd⟩ := Option.isSome_iff_exists.1 (List.getLast?_isSome.2 hfne)
    have hdmem : d ∈ (sortBySeq ros).filter (fun x => x.orderStatus == DELIVERED_STATUS) := by
      obtain ⟨ys, hys⟩ := List.getLast?_eq_some_iff.1 hd
      rw [hys]
      simp
    have hdfil := List.mem_filter.1 hdmem
    have hsortedf : ((sortBySeq ros).filter
        (fun x => x.orderStatus == DELIVERED_STATUS)).Pairwise
          (fun a b => seqKey a ≤ seqKey b) :=
      List.Pairwise.sublist (List.filter_sublist _) hsorted
    refine ⟨d, hperm.mem_iff.1 hdfil.1, beq_iff_eq.1 hdfil.2, ?_, ?_⟩
    · rw [hd]
      rfl
    · intro x hx hxst
      exact pairwise_le_getLast hsortedf hd x
        (List.mem_filter.2 ⟨hperm.mem_iff.2 hx, beq_iff_eq.2 hxst⟩)

/-- `route_progress_characterization` applied at the example route,
discharging all hypotheses: the aggregator returns a result there. -/
theorem route_progress_characterization_witness :
    (getRouteProgress exRoute5 (str "R1")).isSome = true := by
  obtain ⟨r, hr, -⟩ := route_progress_characterization.1 exRoute5 (str "R1") _
    (by decide) (by decide) rfl (by decide)
  rw [hr]
  rfl

/-- Rounding bound used by C10. -/
theorem roundPercent_le_100 {d t : Nat} (hd : d ≤ t) (ht : 1 ≤ t) :
    roundPercent d t ≤ 100 := by
  unfold roundPercent
  have h2t : 0 < 2 * t := by omega
  have := (Nat.div_lt_iff_lt_mul h2t).2 (show 200 * d + t < 101 * (2 * t) by omega)
  omega

/-- C10: every non-null `getRouteProgress` result satisfies the basic
route invariants: at least one stop, completed + pending = total,
completed bounded by total, and a progress percentage between 0 and 100
(the lower bounds are inherent to the natural-number model). -/
theorem route_progress_invariants (orders : List Order) (routeId : Str)
    (r : RouteProgress) (h : getRouteProgress orders routeId = some r) :
    1 ≤ r.totalStops ∧
    r.completedStops + r.pendingStops = r.totalStops ∧
    r.completedStops ≤ r.totalStops ∧
    r.progressPercent ≤ 100 := by
  simp only [getRouteProgress] at h
  split at h
  · cases h
  · split at h
    · cases h
    · rename_i hne
      cases Option.some.inj h
      have hperm := sortBySeq_perm (orders.filter
        (fun o => stripQuotes o.deliveryAssociate == stripQuotes routeId))
      have hlen : 1 ≤ (sortBySeq (orders.filter
          (fun o => stripQuotes o.deliveryAssociate == stripQuotes routeId))).length := by
        rw [hperm.length_eq]
        rw [Nat.one_le_iff_ne_zero]
        intro hz
        apply hne
        simp [List.isEmpty_iff, List.length_eq_zero.1 hz]
      have hdle := List.length_filter_le
        (fun o => o.orderStatus == DELIVERED_STATUS)
        (l := sortBySeq (orders.filter
          (fun o => stripQuotes o.deliveryAssociate == stripQuotes routeId)))
      refine ⟨hlen, by dsimp only; omega, hdle, roundPercent_le_100 hdle hlen⟩

/-- `route_progress_invariants` applied at the example route with its
hypothesis discharged on a concrete result. -/
theorem route_progress_invariants_witness :
    ∃ r, getRouteProgress exRoute5 (str "R1") = some r ∧
      1 ≤ r.totalStops ∧
      r.completedStops + r.pendingStops = r.totalStops ∧
      r.completedStops ≤ r.totalStops ∧
      r.progressPercent ≤ 100 := by
  rcases hr : getRouteProgress exRoute5 (str "R1") with _ | r
  · exact absurd hr (by decide)
  · exact ⟨r, rfl, route_progress_invariants exRoute5 (str "R1") r hr⟩

/-! ## C2: identifiers the verifier must accept -/

/-- Unfold `verifyCustomerOwnership` for a nonempty identifier into its
six short-circuited checks. -/
theorem verify_unfold (order : Order) (identifier : Str)
    (hne : identifier.isEmpty = false) :
    verifyCustomerOwnership order identifier =
      (phoneCheck (normalizePhone order.phone) (normalizePhone (trimStr identifier)) ||
        emailCheck (normalizeEmail order.email) (toLowerStr (trimStr identifier)) ||
        nameCheck (normalizeName order.firstName) (normalizeName (trimStr identifier)) ||
        nameCheck (normalizeName order.lastName) (normalizeName (trimStr identifier)) ||
        fullNameCheck
          (trimStr (normalizeName order.firstName ++ ' ' :: normalizeName order.lastName))
          (normalizeName order.firstName) (normalizeName order.lastName)
          (normalizeName (trimStr identifier)) ||
        finalFuzzyCheck (normalizeName order.firstName) (normalizeName order.lastName)
          (normalizeName (trimStr identifier))) := by
  unfold verifyCustomerOwnership
  rw [if_neg (by simp [hne])]

/-- C2 counterexample: the claim fails on short fields.  For an order
whose first name is the single letter "J", the identifier "j" is equal
case-insensitively to the first name, yet `verifyCustomerOwnership`
returns false: the first-name check requires a normalized identifier of
at least 2 characters, and every other check's guard also rejects. -/
theorem verify_counterexample :
    toLowerStr (str "j") = toLowerStr (str "J") ∧
    verifyCustomerOwnership
      { customerOrderId := 1, orderStatus := str "PLACED", phone := [], email := [],
        firstName := str "J", lastName := [], address := [], deliveryAssociate := [],
        deliverySeq := none } (str "j") = false :=
  ⟨by decide, by decide⟩

/-- C2 amended: the acceptance guarantee holds once each check's length
guard is met.  `verifyCustomerOwnership` returns true for every
identifier that (1) carries at least 4 digits forming a suffix of the
order's normalized phone, or (2) equals the order's email
case-insensitively with at least 3 characters after trimming, or
(3)/(4) equals the first or last name case-insensitively with a
name-normalization of at least 2 characters, or (5) name-normalizes to
the order's normalized full name with at least 3 characters. -/
theorem verify_accepts_matching_identifiers (order : Order) (identifier : Str) :
    ((4 ≤ (normalizePhone identifier).length ∧
        normalizePhone identifier <:+ normalizePhone order.phone) →
      verifyCustomerOwnership order identifier = true) ∧
    ((toLowerStr identifier = toLowerStr order.email ∧
        3 ≤ (normalizeEmail identifier).length) →
      verifyCustomerOwnership order identifier = true) ∧
    ((toLowerStr identifier = toLowerStr order.firstName ∧
        2 ≤ (normalizeName identifier).length) →
      verifyCustomerOwnership order identifier = true) ∧
    ((toLowerStr identifier = toLowerStr order.lastName ∧
        2 ≤ (normalizeName identifier).length) →
      verifyCustomerOwnership order identifier = true) ∧
    ((normalizeName identifier =
        trimStr (normalizeName order.firstName ++ ' ' :: normalizeName order.lastName) ∧
        3 ≤ (normalizeName identifier).length) →
      verifyCustomerOwnership order identifier = true) := by
  refine ⟨?_, ?_, ?_, ?_, ?_⟩
  · rintro ⟨h4, hsuf⟩
    have hne : identifier.isEmpty = false := by
      cases hi : identifier.isEmpty with
      | false => rfl
      | true =>
        rw [List.isEmpty_iff.1 hi] at h4
        exact absurd h4 (by decide)
    have hip : normalizePhone (trimStr identifier) = normalizePhone identifier :=
      normalizePhone_trimStr identifier
    have hople : 4 ≤ (normalizePhone order.phone).length := by
      have := hsuf.length_le
      omega
    have hop_ne : (normalizePhone order.phone).isEmpty = false := by
      cases hi : (normalizePhone order.phone).isEmpty with
      | false => rfl
      | true => rw [List.isEmpty_iff.1 hi] at hople; exact absurd hople (by decide)
    have hip_ne : (normalizePhone identifier).isEmpty = false := by
      cases hi : (normalizePhone identifier).isEmpty with
      | false => rfl
      | true => rw [List.isEmpty_iff.1 hi] at h4; exact absurd h4 (by decide)
    have hp : phoneCheck (normalizePhone order.phone) (normalizePhone identifier) = true := by
      simp [phoneCheck, hop_ne, hip_ne, h4, List.isSuffixOf_iff_suffix, hsuf]
    rw [verify_unfold order identifier hne, hip]
    simp [hp]
  · rintro ⟨hEq, hlen⟩
    have hne : identifier.isEmpty = false := by
      cases hi : identifier.isEmpty with
      | false => rfl
      | true =>
        rw [List.isEmpty_iff.1 hi] at hlen
        exact absurd hlen (by decide)
    have hEq2 : normalizeEmail identifier = normalizeEmail order.email := by
      unfold normalizeEmail
      rw [hEq]
    have hIL : toLowerStr (trimStr identifier) = normalizeEmail order.email := by
      rw [toLowerStr_trimStr, hEq]
      rfl
    have hlen2 : 3 ≤ (normalizeEmail order.email).length := hEq2 ▸ hlen
    have hne2 : (normalizeEmail order.email).isEmpty = false := by
      cases hi : (normalizeEmail order.email).isEmpty with
      | false => rfl
      | true => rw [List.isEmpty_iff.1 hi] at hlen2; exact absurd hlen2 (by decide)
    have hec : emailCheck (normalizeEmail order.email) (toLowerStr (trimStr identifier)) = true := by
      rw [hIL]
      simp [emailCheck, hne2, hlen2]
    rw [verify_unfold order identifier hne]
    simp [hec]
  · rintro ⟨hEq, hlen⟩
    have hne : identifier.isEmpty = false := by
      cases hi : identifier.isEmpty with
      | false => rfl
      | true =>
        rw [List.isEmpty_iff.1 hi] at hlen
        exact absurd hlen (by decide)
    have hN : normalizeName identifier = normalizeName order.firstName := by
      unfold normalizeName
      rw [hEq]
    have hIN : normalizeName (trimStr identifier) = normalizeName order.firstName := by
      rw [normalizeName_trimStr, hN]
    have hlen2 : 2 ≤ (normalizeName order.firstName).length := hN ▸ hlen
    have hne2 : (normalizeName order.firstName).isEmpty = false := by
      cases hi : (normalizeName order.firstName).isEmpty with
      | false => rfl
      | true => rw [List.isEmpty_iff.1 hi] at hlen2; exact absurd hlen2 (by decide)
    have hnc : nameCheck (normalizeName order.firstName)
        (normalizeName (trimStr identifier)) = true := by
      rw [hIN]
      simp [nameCheck, hne2, hlen2]
    rw [verify_unfold order identifier hne]
    simp [hnc]
  · rintro ⟨hEq, hlen⟩
    have hne : identifier.isEmpty = false := by
      cases hi : identifier.isEmpty with
      | false => rfl
      | true =>
        rw [List.isEmpty_iff.1 hi] at hlen
        exact absurd hlen (by decide)
    have hN : normalizeName identifier = normalizeName order.lastName := by
      unfold normalizeName
      rw [hEq]
    have hIN : normalizeName (trimStr identifier) = normalizeName order.lastName := by
      rw [normalizeName_trimStr, hN]
    have hlen2 : 2 ≤ (normalizeName order.lastName).length := hN ▸ hlen
    have hne2 : (normalizeName order.lastName).isEmpty = false := by
      cases hi : (normalizeName order.lastName).isEmpty with
      | false => rfl
      | true => rw [List.isEmpty_iff.1 hi] at hlen2; exact absurd hlen2 (by decide)
    have hnc : nameCheck (normalizeName order.lastName)
        (normalizeName (trimStr identifier)) = true := by
      rw [hIN]
      simp [nameCheck, hne2, hlen2]
    rw [verify_unfold order identifier hne]
    simp [hnc]
  · rintro ⟨hEq, hlen⟩
    have hne : identifier.isEmpty = false := by
      cases hi : identifier.isEmpty with
      | false => rfl
      | true =>
        rw [List.isEmpty_iff.1 hi] at hlen
        exact absurd hlen (by decide)
    have hIN : normalizeName (trimStr identifier) =
        trimStr (normalizeName order.firstName ++ ' ' :: normalizeName order.lastName) := by
      rw [normalizeName_trimStr, hEq]
    have hlen2 : 3 ≤ (trimStr (normalizeName order.firstName ++ ' ' ::
        normalizeName order.lastName)).length := hEq ▸ hlen
    have hne2 : (trimStr (normalizeName order.firstName ++ ' ' ::
        normalizeName order.lastName)).isEmpty = false := by
      cases hi : (trimStr (normalizeName order.firstName ++ ' ' ::
          normalizeName order.lastName)).isEmpty with
      | false => rfl
      | true => rw [List.isEmpty_iff.1 hi] at hlen2; exact absurd hlen2 (by decide)
    have hfc : fullNameCheck
        (trimStr (normalizeName order.firstName ++ ' ' :: normalizeName order.lastName))
        (normalizeName order.firstName) (normalizeName order.lastName)
        (normalizeName (trimStr identifier)) = true := by
      rw [hIN]
      simp [fullNameCheck, hne2, hlen2]
    rw [verify_unfold order identifier hne]
    simp [hfc]

/-- `verify_accepts_matching_identifiers` at concrete inputs: both the
phone-suffix and the first-name hypotheses are dischargeable and imply
acceptance. -/
theorem verify_accepts_matching_identifiers_witness :
    verifyCustomerOwnership
      { customerOrderId := 3, orderStatus := str "PLACED", phone := str "732-555-1234",
        email := str "sonia.k@mail.com", firstName := str "Sonia", lastName := str "Kapoor",
        address := [], deliveryAssociate := [], deliverySeq := none } (str "1234") = true ∧
    verifyCustomerOwnership
      { customerOrderId := 3, orderStatus := str "PLACED", phone := str "732-555-1234",
        email := str "sonia.k@mail.com", firstName := str "Sonia", lastName := str "Kapoor",
        address := [], deliveryAssociate := [], deliverySeq := none } (str "SONIA") = true :=
  ⟨(verify_accepts_matching_identifiers _ (str "1234")).1 ⟨by decide, by decide⟩,
    (verify_accepts_matching_identifiers _ (str "SONIA")).2.2.1 ⟨by decide, by decide⟩⟩

/-! ## C1 and C9: the verification session store -/

theorem isVerifiedRead_some {m : Str → Option SessVal} {sid : Str} {v : SessVal}
    (oid : Str) (h : m sid = some v) :
    isVerifiedRead m sid oid = v.verified.contains oid := by
  unfold isVerifiedRead
  rw [h]
  cases v <;> rfl

theorem isVerifiedRead_none {m : Str → Option SessVal} {sid : Str} (oid : Str)
    (h : m sid = none) : isVerifiedRead m sid oid = false := by
  unfold isVerifiedRead
  rw [h]

theorem mapSet_same {α : Type} (m : Str → Option α) (k : Str) (v : α) :
    mapSet m k v k = some v := by
  simp [mapSet]

theorem mapSet_other {α : Type} (m : Str → Option α) {k k2 : Str} (v : α)
    (h : k2 ≠ k) : mapSet m k v k2 = m k2 := by
  simp [mapSet, h]

theorem mapDel_cases {α : Type} (m : Str → Option α) (k k2 : Str) :
    mapDel m k k2 = if k2 = k then none else m k2 := rfl

theorem isVerifiedRead_mapDel (m : Str → Option SessVal) (k sid oid : Str) :
    isVerifiedRead (mapDel m k) sid oid =
      if sid = k then false else isVerifiedRead m sid oid := by
  by_cases h : sid = k
  · rw [if_pos h, h]
    exact isVerifiedRead_none oid (by simp [mapDel])
  · rw [if_neg h]
    unfold isVerifiedRead mapDel
    rw [if_neg h]

theorem addId_contains (l : List Str) (x : Str) : (addId l x).contains x = true := by
  unfold addId
  split
  · assumption
  · rw [List.elem_iff]
    simp

theorem contains_addId {l : List Str} {x y : Str}
    (h : (addId l x).contains y = true) : y = x ∨ l.contains y = true := by
  unfold addId at h
  split at h
  · exact Or.inr h
  · rw [List.elem_iff] at h
    rcases List.mem_append.1 h with h1 | h2
    · exact Or.inr (List.elem_iff.2 h1)
    · rw [List.mem_singleton] at h2
      exact Or.inl h2

/-- Membership in a freshly written verified set. -/
theorem isVerifiedRead_mapSet_legacy (m : Str → Option SessVal) (k : Str)
    (l : List Str) (sid oid : Str) :
    isVerifiedRead (mapSet m k (.legacySet l)) sid oid =
      if sid = k then l.contains oid else isVerifiedRead m sid oid := by
  by_cases h : sid = k
  · rw [if_pos h, h, isVerifiedRead_some oid (mapSet_same m k _)]
    rfl
  · rw [if_neg h]
    unfold isVerifiedRead
    rw [mapSet_other _ _ h]

theorem isVerifiedRead_mapSet_obj (m : Str → Option SessVal) (k : Str)
    (l : List Str) (e : Option Nat) (sid oid : Str) :
    isVerifiedRead (mapSet m k (.obj l e)) sid oid =
      if sid = k then l.contains oid else isVerifiedRead m sid oid := by
  by_cases h : sid = k
  · rw [if_pos h, h, isVerifiedRead_some oid (mapSet_same m k _)]
    rfl
  · rw [if_neg h]
    unfold isVerifiedRead
    rw [mapSet_other _ _ h]

/-- C1: the session store's verified sets change only through the
verification paths.  (i) In the initial state nothing is verified.
(ii) If a step makes `isVerified` true where it was not, that step
recorded a successful `verifyCustomerOwnership` check for exactly that
session and order id — there is no bypass, so before any successful
verification is recorded `isVerified` stays false.  (iii) A step that
records a successful verification leaves `isVerified` true.  (iv) A
failed chat verification attempt changes nothing at all: in particular it
leaves `isVerified` false and does not clear the pending record. -/
theorem verified_only_through_successful_check :
    (∀ sid oid, isVerifiedRead initialSessions.sessions sid oid = false) ∧
    (∀ (s : SessionState) (e : Event) (sid oid : Str),
      isVerifiedRead (step s e).sessions sid oid = true →
      isVerifiedRead s.sessions sid oid = true ∨ recordsVerification s e sid oid) ∧
    (∀ (s : SessionState) (e : Event) (sid oid : Str),
      recordsVerification s e sid oid →
      isVerifiedRead (step s e).sessions sid oid = true) ∧
    (∀ (s : SessionState) (sid oid message : Str) (order : Order),
      s.pending sid = some (oid, order) →
      verifyCustomerOwnership order (trimStr message) = false →
      step s (.chatVerifyMessage sid message) = s) := by
  refine ⟨fun _ _ => rfl, ?_, ?_, ?_⟩
  · intro s e sid oid
    cases e with
    | createSession token now =>
      simp only [step]
      rw [isVerifiedRead_mapSet_obj]
      by_cases h : sid = token
      · rw [if_pos h]
        intro h2
        rw [List.elem_iff] at h2
        simp at h2
      · rw [if_neg h]
        exact fun h2 => Or.inl h2
    | chatEnsureSession token now =>
      simp only [step]
      cases hs : s.sessions token with
      | none =>
        dsimp only
        rw [isVerifiedRead_mapSet_obj]
        by_cases h : sid = token
        · rw [if_pos h]
          intro h2
          rw [List.elem_iff] at h2
          simp at h2
        · rw [if_neg h]
          exact fun h2 => Or.inl h2
      | some v =>
        cases v with
        | legacySet l => exact fun h2 => Or.inl h2
        | obj ver eo =>
          cases eo with
          | none => exact fun h2 => Or.inl h2
          | some exp =>
            dsimp only
            by_cases hlt : exp < now
            · rw [if_pos hlt, isVerifiedRead_mapDel]
              by_cases h : sid = token
              · rw [if_pos h]
                intro h2
                cases h2
              · rw [if_neg h]
                exact fun h2 => Or.inl h2
            · rw [if_neg hlt]
              exact fun h2 => Or.inl h2
    | chatOrderQuery sid2 oid2 order vinfo =>
      simp only [step]
      cases hs : s.sessions sid2 with
      | some v =>
        cases v with
        | obj ver eo => exact fun h2 => Or.inl h2
        | legacySet l =>
          dsimp only
          by_cases hmem : l.contains oid2 = true
          · rw [if_pos hmem]
            exact fun h2 => Or.inl h2
          · rw [if_neg hmem]
            cases vinfo with
            | none => exact fun h2 => Or.inl h2
            | some info =>
              cases hv : verifyCustomerOwnership order info with
              | false =>
                simp only [chatRecordAttempt, hv, Bool.false_eq_true, if_false]
                exact fun h2 => Or.inl h2
              | true =>
                simp only [chatRecordAttempt, hv, if_true, hs]
                rw [isVerifiedRead_mapSet_legacy]
                by_cases hsid : sid = sid2
                · rw [if_pos hsid]
                  intro h2
                  rcases contains_addId h2 with rfl | hmem2
                  · subst hsid
                    exact Or.inr (Or.inl ⟨order, info, rfl, hv, by unfold objSession; rw [hs]⟩)
                  · subst hsid
                    refine Or.inl ?_
                    rw [isVerifiedRead_some oid hs]
                    exact hmem2
                · rw [if_neg hsid]
                  exact fun h2 => Or.inl h2
      | none =>
        dsimp only
        cases vinfo with
        | none => exact fun h2 => Or.inl h2
        | some info =>
          cases hv : verifyCustomerOwnership order info with
          | false =>
            simp only [chatRecordAttempt, hv, Bool.false_eq_true, if_false]
            exact fun h2 => Or.inl h2
          | true =>
            simp only [chatRecordAttempt, hv, if_true, hs]
            rw [isVerifiedRead_mapSet_legacy]
            by_cases hsid : sid = sid2
            · rw [if_pos hsid]
              intro h2
              rcases contains_addId h2 with rfl | hmem2
              · subst hsid
                exact Or.inr (Or.inl ⟨order, info, rfl, hv, by unfold objSession; rw [hs]⟩)
              · rw [List.elem_iff] at hmem2
                simp at hmem2
            · rw [if_neg hsid]
              exact fun h2 => Or.inl h2
    | chatVerifyMessage sid2 msg =>
      simp only [step]
      cases hp : s.pending sid2 with
      | none => exact fun h2 => Or.inl h2
      | some pr =>
        obtain ⟨oid2, order⟩ := pr
        dsimp only
        cases hv : verifyCustomerOwnership order (trimStr msg) with
        | false =>
          rw [if_neg (by simp)]
          exact fun h2 => Or.inl h2
        | true =>
          rw [if_pos rfl]
          cases hs : s.sessions sid2 with
          | none =>
            dsimp only
            rw [isVerifiedRead_mapSet_legacy]
            by_cases hsid : sid = sid2
            · rw [if_pos hsid]
              intro h2
              rcases contains_addId h2 with rfl | hmem2
              · subst hsid
                exact Or.inr (Or.inr (Or.inl
                  ⟨msg, order, rfl, hp, hv, by unfold objSession; rw [hs]⟩))
              · rw [List.elem_iff] at hmem2
                simp at hmem2
            · rw [if_neg hsid]
              exact fun h2 => Or.inl h2
          | some v =>
            cases v with
            | obj ver eo => exact fun h2 => Or.inl h2
            | legacySet l =>
              dsimp only
              rw [isVerifiedRead_mapSet_legacy]
              by_cases hsid : sid = sid2
              · rw [if_pos hsid]
                intro h2
                rcases contains_addId h2 with rfl | hmem2
                · subst hsid
                  exact Or.inr (Or.inr (Or.inl
                    ⟨msg, order, rfl, hp, hv, by unfold objSession; rw [hs]⟩))
                · subst hsid
                  refine Or.inl ?_
                  rw [isVerifiedRead_some oid hs]
                  exact hmem2
              · rw [if_neg hsid]
                exact fun h2 => Or.inl h2
    | mobileVerify tok oid2 order ident =>
      simp only [step]
      cases hv : verifyCustomerOwnership order ident with
      | false =>
        rw [if_neg (by simp)]
        exact fun h2 => Or.inl h2
      | true =>
        rw [if_pos rfl]
        cases hs : s.sessions tok with
        | none =>
          dsimp only
          rw [isVerifiedRead_mapSet_obj]
          by_cases hsid : sid = tok
          · rw [if_pos hsid]
            intro h2
            rcases contains_addId h2 with rfl | hmem2
            · subst hsid
              exact Or.inr (Or.inr (Or.inr ⟨order, ident, rfl, hv⟩))
            · rw [List.elem_iff] at hmem2
              simp at hmem2
          · rw [if_neg hsid]
            exact fun h2 => Or.inl h2
        | some v =>
          cases v with
          | legacySet l =>
            dsimp only
            rw [isVerifiedRead_mapSet_legacy]
            by_cases hsid : sid = tok
            · rw [if_pos hsid]
              intro h2
              rcases contains_addId h2 with rfl | hmem2
              · subst hsid
                exact Or.inr (Or.inr (Or.inr ⟨order, ident, rfl, hv⟩))
              · subst hsid
                refine Or.inl ?_
                rw [isVerifiedRead_some oid hs]
                exact hmem2
            · rw [if_neg hsid]
              exact fun h2 => Or.inl h2
          | obj ver eo =>
            dsimp only
            rw [isVerifiedRead_mapSet_obj]
            by_cases hsid : sid = tok
            · rw [if_pos hsid]
              intro h2
              rcases contains_addId h2 with rfl | hmem2
              · subst hsid
                exact Or.inr (Or.inr (Or.inr ⟨order, ident, rfl, hv⟩))
              · subst hsid
                refine Or.inl ?_
                rw [isVerifiedRead_some oid hs]
                exact hmem2
            · rw [if_neg hsid]
              exact fun h2 => Or.inl h2
  · intro s e sid oid hrec
    rcases hrec with ⟨order, info, rfl, hv, hobj⟩ | ⟨msg, order, rfl, hpend, hv, hobj⟩ |
      ⟨order, ident, rfl, hv⟩
    · simp only [step]
      cases hs : s.sessions sid with
      | none =>
        dsimp only
        simp only [chatRecordAttempt, hv, if_true, hs]
        rw [isVerifiedRead_mapSet_legacy, if_pos rfl]
        exact addId_contains [] oid
      | some v =>
        cases v with
        | legacySet l =>
          dsimp only
          by_cases hmem : l.contains oid = true
          · rw [if_pos hmem, isVerifiedRead_some oid hs]
            exact hmem
          · rw [if_neg hmem]
            simp only [chatRecordAttempt, hv, if_true, hs]
            rw [isVerifiedRead_mapSet_legacy, if_pos rfl]
            exact addId_contains l oid
        | obj ver eo =>
          exfalso
          unfold objSession at hobj
          rw [hs] at hobj
          exact absurd hobj (by simp)
    · simp only [step, hpend]
      rw [if_pos hv]
      cases hs : s.sessions sid with
      | none =>
        dsimp only
        rw [isVerifiedRead_mapSet_legacy, if_pos rfl]
        exact addId_contains [] oid
      | some v =>
        cases v with
        | legacySet l =>
          dsimp only
          rw [isVerifiedRead_mapSet_legacy, if_pos rfl]
          exact addId_contains l oid
        | obj ver eo =>
          exfalso
          unfold objSession at hobj
          rw [hs] at hobj
          exact absurd hobj (by simp)
    · simp only [step]
      rw [if_pos hv]
      cases hs : s.sessions sid with
      | none =>
        dsimp only
        rw [isVerifiedRead_mapSet_obj, if_pos rfl]
        exact addId_contains [] oid
      | some v =>
        cases v with
        | legacySet l =>
          dsimp only
          rw [isVerifiedRead_mapSet_legacy, if_pos rfl]
          exact addId_contains l oid
        | obj ver eo =>
          dsimp only
          rw [isVerifiedRead_mapSet_obj, if_pos rfl]
          exact addId_contains ver oid
  · intro s sid oid message order hpend hfail
    simp only [step, hpend]
    rw [if_neg (by simp [hfail])]

/-- `verified_only_through_successful_check` applied at a concrete
successful mobile verification from the initial state: the recording
hypothesis is discharged by computation and the order becomes verified. -/
theorem verified_only_through_successful_check_witness :
    isVerifiedRead (step initialSessions
      (.mobileVerify (str "t1") (str "64531") wOrder (str "John"))).sessions
      (str "t1") (str "64531") = true :=
  verified_only_through_successful_check.2.2.1 initialSessions
    (.mobileVerify (str "t1") (str "64531") wOrder (str "John"))
    (str "t1") (str "64531")
    (Or.inr (Or.inr ⟨wOrder, str "John", rfl, by decide⟩))

/-- C9 (code-bug evidence): the verification gate of the mobile `track`
and `driver-location` endpoints never consults `expiresAt` — it is
independent of the request time — so a session whose expiry (1000) has
passed at request time 2000 and which holds a verified order is still
granted access, although with no session stored for that token the same
request is denied.  The claim that an expired session is treated as
absent on every access therefore fails at these endpoints (only the chat
endpoint checks expiry). -/
theorem track_gate_ignores_expiry :
    (∀ (sessions : Str → Option SessVal) (now1 now2 : Nat) (token oid : Str),
      trackVerificationGate sessions now1 token oid =
        trackVerificationGate sessions now2 token oid) ∧
    trackVerificationGate
      (mapSet (fun _ => none) (str "t1") (.obj [str "64531"] (some 1000)))
      2000 (str "t1") (str "64531") = true ∧
    1000 < 2000 ∧
    trackVerificationGate (fun _ => none) 2000 (str "t1") (str "64531") = false := by
  refine ⟨fun _ _ _ _ _ => rfl, ?_, by decide, rfl⟩
  decide

end Iperkz
